import Mathlib

/-!
Shallow embedding of the record-sampling pipeline of the submit-service
repository (src/sample.js, the current sampler, and src/app.js, the legacy
`/fields` variant), together with theorems settling the frozen claims about
its natural-language specification.

Records (CSV rows, GeoJSON feature properties, ArcGIS attributes) are
modelled as association lists from field name to value.  JavaScript numbers
produced by `parseInt` are modelled as `JsParseInt` (a finite integer,
`NaN`, or `±Infinity`); sampling parameters are `Int` because the service
accepts any finite integer, including negative ones.
-/

namespace SubmitService

/-- A decoded record: an ordered association of field names to values. -/
abbrev Rec := List (String × String)

/-! ## Delimiter detection (src/sample.js `parseCsvStream`, lines 272-294) -/

/-- The candidate delimiters, in the order they are listed in
`_.pick(_.countBy(headerLine), [',', '|', '\t', ';'])`. -/
def delimiterCandidates : List Char := [',', '|', '\t', ';']

/-- Number of occurrences of character `c` in the header line
(`_.countBy(headerLine)` restricted to one key). -/
def countChar (line : List Char) (c : Char) : Nat :=
  (line.filter (fun x => x = c)).length

/-- `_.keys(_.pick(_.countBy(headerLine), cands))`: the candidate characters
that occur at least once in the header line, in candidate order (lodash
`pick` inserts keys in the order of its key list, and `keys` returns string
keys in insertion order). -/
def presentCandidates (line : List Char) : List Char :=
  delimiterCandidates.filter (fun c => 0 < countChar line c)

/-- lodash `_.maxBy`: scans left to right keeping the current maximum and
replacing it only on a strictly greater value, so the first element
attaining the maximum wins; returns `none` on an empty list. -/
def maxByFold (f : Char → Nat) : List Char → Option Char
  | [] => none
  | c :: cs => some (cs.foldl (fun m x => if f m < f x then x else m) c)

/-- `parseCsvStream`'s `likelyDelimiter`:
`_.maxBy(_.keys(delimiterHistogram), i => delimiterHistogram[i])`. -/
def likelyDelimiter (line : List Char) : Option Char :=
  maxByFold (countChar line) (presentCandidates line)

/-- The largest value of `f` over a list (0 on the empty list). -/
def maxCount (f : Char → Nat) (l : List Char) : Nat :=
  (l.map f).foldr max 0

/-- The candidate order asserted by the claim (spec section 4.3): comma,
pipe, tab, semicolon. -/
def specCandidateOrder : List Char := [',', '|', '\t', ';']

/-- Modelled from the spec: the maximum occurrence count over the four
candidate delimiters. -/
def maxCandidateCount (line : List Char) : Nat :=
  maxCount (countChar line) specCandidateOrder

/-- Modelled from the spec: "the detected delimiter equals the most frequent
of the candidates in the header line; ties resolve to the earliest in the
candidate order comma, pipe, tab, semicolon". -/
def specDelimiter (line : List Char) : Option Char :=
  specCandidateOrder.find? (fun c => countChar line c = maxCandidateCount line)

/-- Field extraction of `parseCsvStream` (src/sample.js line 284):
`headerLine.split(likelyDelimiter)`; when no candidate occurs at all,
`likelyDelimiter` is `undefined` and `split(undefined)` returns the whole
line as the single field. -/
def csvHeaderFields (headerLine : List Char) : List String :=
  match likelyDelimiter headerLine with
  | some d => (headerLine.splitOn d).map (fun cs => String.mk cs)
  | none => [String.mk headerLine]

/-! ## CSV record collection (src/sample.js `parseCsvStream`, lines 297-331)

`csv-parse` is invoked with `from: offset+1`, which skips the first `offset`
records; the `through2` collector then pushes each record while
`results.length < size` and destroys the stream otherwise. -/

/-- The `through2.obj` collector of `parseCsvStream`: push each incoming
record while `results.length < size`, otherwise destroy the stream and keep
the accumulated results. -/
def csvCollect (size : Int) (acc : List Rec) : List Rec → List Rec
  | [] => acc
  | r :: rs =>
    if (acc.length : Int) < size then csvCollect size (acc ++ [r]) rs
    else acc

/-- `parseCsvStream` record windowing: `csv-parse`'s `from: offset+1` drops
the first `offset` records (no records are dropped when `offset` is
negative, since record numbers start at 1), then the collector caps the
results at `size`. -/
def csvSample (rows : List Rec) (offset size : Int) : List Rec :=
  csvCollect size [] (rows.drop offset.toNat)

/-- The HTTP delimited-text path of `sampleHttpSource` (src/sample.js lines
537-566): `byline` + `through2` copy only the first 101 lines (header plus
100 data rows) to a temp file before handing the stream to
`parseCsvStream`. -/
def httpCsvSample (rows : List Rec) (offset size : Int) : List Rec :=
  csvSample (rows.take 100) offset size

/-- The `fields`/`results` pair `parseCsvStream` leaves in
`res.locals.source.source_data`. -/
structure CsvOutput where
  fields : List String
  results : List Rec
deriving DecidableEq

/-- The complete `parseCsvStream` pipeline over a header line and the
already-parsed data records: `fields` comes from the header alone (before
any record-level parsing), `results` from the offset/size window over the
records. -/
def parseCsvStream (headerLine : List Char) (rows : List Rec) (offset size : Int) :
    CsvOutput :=
  { fields := csvHeaderFields headerLine, results := csvSample rows offset size }

/-! ## GeoJSON decoding (src/sample.js `parseGeoJsonStream`, lines 213-261)

oboe fires a `features.*.properties` callback for every feature, in source
order, carrying the feature's index in `path[1]`; the callback skips it when
`path[1] < offset`, sets `fields` from the property keys when `fields` is
still empty, and pushes the properties.  A second callback on
`features[offset+size-1]` fires after that feature's properties callback and
aborts the transfer.  Once aborted, no further callbacks run.

oboe compiles each node pattern eagerly when `.node()` is registered, and
its JSONPath grammar tokenises only non-negative bracket indices; when
`offset+size-1` is negative, registering `features[offset+size-1]` throws
"could not be tokenised" before a single byte is decoded, so neither
callback ever runs and `fields`/`results` keep their initial empty
values. -/

/-- Mutable decoding state shared with the collector:
`res.locals.source.source_data.fields`, `...results`, and whether
`this.abort()` has been called. -/
structure GeoState where
  fields : List String
  results : List Rec
  aborted : Bool
deriving DecidableEq

/-- Handling of the feature at index `i`: the `features.*.properties`
callback (skip below `offset`, set `fields` if empty, push), then the
`features[offset+size-1]` callback (abort), which oboe fires after the
properties callback of the same feature.  The decoder only ever runs with
a non-negative abort index `offset+size-1`: for a negative one, oboe
refuses the node pattern at registration and no callback runs at all (see
`parseGeoJsonStream`). -/
def geoStep (offset size : Int) (i : Nat) (props : Rec) (s : GeoState) : GeoState :=
  if s.aborted then s
  else
    { fields :=
        if (i : Int) < offset then s.fields
        else if s.fields.isEmpty then props.map Prod.fst else s.fields,
      results :=
        if (i : Int) < offset then s.results
        else s.results ++ [props],
      aborted := if (i : Int) = offset + size - 1 then true else s.aborted }

/-- Runs the decoder over the stream of features, the first one carrying
index `i`. -/
def geoRun (offset size : Int) (s : GeoState) (i : Nat) : List Rec → GeoState
  | [] => s
  | p :: ps => geoRun offset size (geoStep offset size i p s) (i + 1) ps

/-- The state a fresh request is in when the decoder starts: empty `fields`,
empty `results`, transfer alive. -/
def geoInit : GeoState := { fields := [], results := [], aborted := false }

/-- The records retained by a complete run of the GeoJSON decoder. -/
def geoSample (offset size : Int) (features : List Rec) : List Rec :=
  (geoRun offset size geoInit 0 features).results

/-- Outcome of an attempted GeoJSON decode: either the decoder ran to its
final state, or oboe threw while compiling the abort node pattern and
nothing was decoded. -/
inductive GeoDecodeResult where
  | decoded : GeoState → GeoDecodeResult
  | patternError : GeoDecodeResult
deriving DecidableEq

/-- The whole of `parseGeoJsonStream`: registering the callbacks and, when
the abort pattern `features[offset+size-1]` is tokenisable (non-negative
index), running the decoder over the feature stream; a negative index makes
`.node()` throw "could not be tokenised" at registration, before any
decoding. -/
def parseGeoJsonStream (offset size : Int) (features : List Rec) : GeoDecodeResult :=
  if offset + size - 1 < 0 then .patternError
  else .decoded (geoRun offset size geoInit 0 features)

/-- The `source_data.results` array visible after a decode attempt: the
registration exception leaves the initial empty array untouched. -/
def geoResultsOf : GeoDecodeResult → List Rec
  | .decoded s => s.results
  | .patternError => []

/-- The key list the decoder ends up storing in `fields`: the keys of the
first retained record that has any keys at all (a retained record with an
empty property object writes the empty list into `fields`, which leaves it
empty and lets a later record overwrite it). -/
def firstFields : List Rec → List String
  | [] => []
  | p :: ps => if (p.map Prod.fst).isEmpty then firstFields ps else p.map Prod.fst

/-- The window of feature records that `geoRun` retains when entered at
index `i`: everything up to the abort index `offset+size-1`, minus the
prefix below `offset`. -/
def geoWindow (offset size : Int) (i : Nat) (ps : List Rec) : List Rec :=
  (ps.take (offset + size - i).toNat).drop (offset - i).toNat

/-! ## ArcGIS sampling (src/sample.js `sampleArcgis`, lines 160-210)

The sampler builds `{service}/query?...&resultRecordCount=size&resultOffset=offset&f=json`
and then pushes every `features.*.attributes` node of the feed into
`results`, with no client-side cap: the offset/size window is applied only
server-side via the query parameters. -/

/-- The query parameters `sampleArcgis` appends to the service URL. -/
def arcgisQueryParams (size offset : Int) : List (String × String) :=
  [("outFields", "*"), ("where", "1=1"),
   ("resultRecordCount", toString size), ("resultOffset", toString offset),
   ("f", "json")]

/-- The `features.*.attributes` callback of `sampleArcgis`: every attribute
record of the feed is pushed. -/
def arcgisResults (feed : List Rec) : List Rec :=
  feed.foldl (fun acc f => acc ++ [f]) []

/-! ## HTTP response handling (src/sample.js `sampleHttpSource`, lines 505-526)

On the `response` event: a status code other than exactly 200 produces a
400 error response; the upstream body text is buffered into the error
message only when the `content-type` header starts with `text/plain`.
A status of exactly 200 proceeds to the matching decoder. -/

/-- What `sampleHttpSource` does with an upstream response.  The content
type is carried as a character list (`none` models an absent header, for
which lodash `startsWith(undefined)` is false). -/
inductive HttpResponseAction where
  | proceedToDecode : HttpResponseAction
  | respondErrorWithBody : Int → HttpResponseAction
  | respondErrorPlain : Int → HttpResponseAction
deriving DecidableEq

/-- `_.startsWith(_.get(response.headers, 'content-type'), 'text/plain')`. -/
def contentTypeIsTextPlain (contentType : Option (List Char)) : Bool :=
  match contentType with
  | none => false
  | some ct => "text/plain".data.isPrefixOf ct

/-- The `response` handler of `sampleHttpSource`. -/
def handleHttpResponse (statusCode : Int) (contentType : Option (List Char)) :
    HttpResponseAction :=
  if statusCode ≠ 200 then
    if contentTypeIsTextPlain contentType then .respondErrorWithBody statusCode
    else .respondErrorPlain statusCode
  else .proceedToDecode

/-! ## File-name classification (src/sample.js lines 32-62) -/

/-- The regular expression `/\.[cpt]sv$/i` of `delimitedFileRegexp`: the
name ends, case-insensitively, in `.csv`, `.tsv`, or `.psv`. -/
def isDelimitedFile (filename : String) : Bool :=
  let l := filename.data.map Char.toLower
  ".csv".data.isSuffixOf l || ".tsv".data.isSuffixOf l || ".psv".data.isSuffixOf l

/-- The regular expression `/(Map|Feature)Server\/\d+\/?$/` of
`arcgisRegexp`: the path ends in `MapServer/` or `FeatureServer/` followed
by one or more digits and at most one trailing slash. -/
def arcgisMatch (pathname : String) : Bool :=
  let r0 := pathname.data.reverse
  let r1 := match r0 with
    | '/' :: rest => rest
    | _ => r0
  let digits := r1.takeWhile Char.isDigit
  let r2 := r1.dropWhile Char.isDigit
  (!digits.isEmpty) &&
    ("MapServer/".data.reverse.isPrefixOf r2 || "FeatureServer/".data.reverse.isPrefixOf r2)

/-- `_.endsWith`, case-sensitive, over the underlying characters. -/
def strEndsWith (s suffixPart : String) : Bool :=
  suffixPart.data.isSuffixOf s.data

/-- `getProtocol` (src/sample.js lines 52-58): returns `undefined` (here
`none`) for any scheme other than http, https, ftp. -/
def getProtocol (protocol : String) : Option String :=
  if protocol = "http:" ∨ protocol = "https:" then some "http"
  else if protocol = "ftp:" then some "ftp"
  else none

/-! ## Query-parameter handling (src/sample.js `determineType`, lines 88-98)

`parseInt(req.query.size)` yields an integral finite JavaScript number,
`NaN` (for a missing or unparsable parameter), or `±Infinity` when the
numeral has roughly 309 or more digits and overflows the double range;
`_.defaultTo` replaces only `NaN` (and `null`/`undefined`, which `parseInt`
never returns) by the default, letting infinities pass through; the result
is then tested with `_.isInteger`, which is false on `NaN`, on
`±Infinity`, and on non-integral numbers. -/

/-- Outcome of the size/offset handling in `determineType`. -/
inductive ParamResult where
  | ok : Int → ParamResult
  | invalid : ParamResult
deriving DecidableEq

/-- The possible results of JavaScript `parseInt` on a query-string value:
a finite integer, `NaN` (missing or unparsable input), or `±Infinity`
(a numeral of roughly 309 or more digits overflowing the double range). -/
inductive JsParseInt where
  | nan : JsParseInt
  | posInf : JsParseInt
  | negInf : JsParseInt
  | int : Int → JsParseInt
deriving DecidableEq

/-- `_.defaultTo(value, default)`: substitutes the default only for `NaN`
(and `null`/`undefined`, which `parseInt` never returns); `±Infinity`
passes through unchanged. -/
def jsDefaultTo (value : JsParseInt) (dflt : Int) : JsParseInt :=
  match value with
  | .nan => .int dflt
  | v => v

/-- `_.isInteger` applied to a `parseInt` result: true exactly on finite
integral numbers, so false on `NaN` and false on `±Infinity`. -/
def jsIsInteger (value : JsParseInt) : Bool :=
  match value with
  | .int _ => true
  | _ => false

/-- The size/offset check of `determineType`: default the parsed value,
then answer 400 (`invalid`) unless `_.isInteger` holds of it — which, per
`jsIsInteger`, is exactly the finite-integer case, so the defaulted value
is stored on the request context in the `.int` branch and every other
branch is the 400 `Invalid size/offset parameter value` response. -/
def checkQueryParam (parsed : JsParseInt) (dflt : Int) : ParamResult :=
  match jsDefaultTo parsed dflt with
  | .int n => .ok n
  | .nan => .invalid
  | .posInf => .invalid
  | .negInf => .invalid

/-! ## Source classification and routing (src/sample.js lines 112-136 and
653-678)

`determineType` classifies by URL path; the router chain then tries the
ArcGIS, HTTP, and FTP samplers in turn (each passes unless
`res.locals.source.type` matches) and otherwise falls through to `output`,
which answers 200 with the accumulated source context — still holding the
initial empty `fields` and `results` when no sampler ran. -/

/-- Result of `determineType`'s path classification: either a 400 response
or the `(type, conform.type, compression)` triple stored on the request
context. -/
inductive TypeResult where
  | reject : String → TypeResult
  | accept : Option String → Option String → Option String → TypeResult
deriving DecidableEq

/-- The path/protocol dispatch of `determineType` (src/sample.js lines
112-129), for a URL that parsed successfully. -/
def determineType (protocol pathname : String) : TypeResult :=
  if arcgisMatch pathname then .accept (some "ESRI") (some "geojson") none
  else if protocol = "" then .reject "Unable to parse URL"
  else if strEndsWith pathname ".geojson" then .accept (getProtocol protocol) (some "geojson") none
  else if isDelimitedFile pathname then .accept (getProtocol protocol) (some "csv") none
  else if strEndsWith pathname ".zip" then .accept (getProtocol protocol) none (some "zip")
  else .reject "Unsupported type"

/-- Where a classified request ends up after the router chain of
src/sample.js lines 669-678. -/
inductive RouteResult where
  | sampler : String → RouteResult
  | ok200 : List String → List Rec → RouteResult
  | errorResp : String → RouteResult
deriving DecidableEq

/-- The full routing of a request whose URL parsed: classification, then
the `protocolCheck`-guarded sampler routers, then the `output` middleware,
which sends 200 with the untouched empty `source_data` when no sampler
matched. -/
def routeRequest (protocol pathname : String) : RouteResult :=
  match determineType protocol pathname with
  | .reject msg => .errorResp msg
  | .accept srcType _ _ =>
    if srcType = some "ESRI" then .sampler "arcgis"
    else if srcType = some "http" then .sampler "http"
    else if srcType = some "ftp" then .sampler "ftp"
    else .ok200 [] []

/-! ## ZIP entry walking (src/sample.js `processZipFile`, lines 390-488)

Entries are read one at a time; the first entry whose name matches a
recognized extension is dispatched to its decoder (which also sets
`conform.type`); unrecognized entries are skipped.  When the archive ends
with `conform.type` still unset, the request is answered with a 400
"Could not determine type from zip file" error. -/

/-- Outcome of walking the entry names of a ZIP archive. -/
inductive ZipOutcome where
  | dispatched : String → String → ZipOutcome
  | errorResp : Int → String → ZipOutcome
deriving DecidableEq

/-- The decoder an entry name is dispatched to, in the order the `entry`
handler tests extensions. -/
def zipEntryDecoder (name : String) : Option String :=
  if isDelimitedFile name then some "csv"
  else if strEndsWith name ".geojson" then some "geojson"
  else if strEndsWith name ".dbf" then some "shapefile"
  else none

/-- The `entry`/`end` loop of `processZipFile` over the archive's entry
names. -/
def processZipFile : List String → ZipOutcome
  | [] => .errorResp 400 "Could not determine type from zip file"
  | e :: es =>
    match zipEntryDecoder e with
    | some d => .dispatched e d
    | none => processZipFile es

/-! ## The legacy `/fields` CSV sampler (src/app.js `sampleHttpCsv`, lines
239-249)

The legacy collector overwrites `fields` with the keys of *every* record it
pushes, record after record, with a hard-coded window of 10. -/

/-- State of the legacy collector: the `fields` and `results` of
`res.locals.source.source_data`. -/
structure LegacyState where
  fields : List String
  results : List Rec
deriving DecidableEq

/-- One record through the legacy `through2` collector: while fewer than 10
results are collected, set `fields` to the record's keys and push it. -/
def legacyCsvStep (s : LegacyState) (record : Rec) : LegacyState :=
  if s.results.length < 10 then
    { fields := record.map Prod.fst, results := s.results ++ [record] }
  else s

/-- The legacy CSV sampler over a stream of parsed records. -/
def legacyCsvRun (records : List Rec) : LegacyState :=
  records.foldl legacyCsvStep { fields := [], results := [] }

/-! ## Helper lemmas -/

/-- The collector accumulates exactly `size - acc.length` more records
(clamped at zero), in input order. -/
theorem csvCollect_eq (size : Int) (l : List Rec) :
    ∀ acc : List Rec, csvCollect size acc l = acc ++ l.take (size.toNat - acc.length) := by
  induction l with
  | nil => intro acc; simp [csvCollect]
  | cons r rs ih =>
    intro acc
    by_cases h : (acc.length : Int) < size
    · rw [csvCollect, if_pos h, ih]
      have h1 : size.toNat - acc.length = (size.toNat - (acc ++ [r]).length) + 1 := by
        simp only [List.length_append, List.length_cons, List.length_nil]
        omega
      rw [h1]
      simp [List.take_succ_cons]
    · rw [csvCollect, if_neg h]
      have h1 : size.toNat - acc.length = 0 := by omega
      rw [h1]
      simp

/-- `csvSample` is the drop/take window over the record stream. -/
theorem csvSample_eq (rows : List Rec) (offset size : Int) :
    csvSample rows offset size = (rows.drop offset.toNat).take size.toNat := by
  rw [csvSample, csvCollect_eq]
  simp

/-- An aborted decoder ignores the rest of the stream. -/
theorem geoRun_aborted (offset size : Int) (ps : List Rec) :
    ∀ (s : GeoState) (i : Nat), s.aborted = true → geoRun offset size s i ps = s := by
  induction ps with
  | nil => intro s i _; rfl
  | cons p ps ih =>
    intro s i h
    rw [geoRun, geoStep, if_pos h]
    exact ih s (i + 1) h

/-- One step of the retained-window decomposition. -/
theorem geoWindow_cons (offset size : Int) (i : Nat) (p : Rec) (ps : List Rec)
    (h : (i : Int) < offset + size - 1) :
    geoWindow offset size i (p :: ps) =
      (if offset ≤ (i : Int) then [p] else []) ++ geoWindow offset size (i + 1) ps := by
  unfold geoWindow
  have h1 : (offset + size - i).toNat = (offset + size - (i + 1 : Nat)).toNat + 1 := by
    push_cast
    omega
  rw [h1, List.take_succ_cons]
  by_cases h2 : offset ≤ (i : Int)
  · have h3 : (offset - i).toNat = 0 := by omega
    have h4 : (offset - (i + 1 : Nat)).toNat = 0 := by push_cast; omega
    rw [h3, h4, if_pos h2]
    simp
  · have h3 : (offset - i).toNat = (offset - (i + 1 : Nat)).toNat + 1 := by push_cast; omega
    rw [h3, if_neg h2, List.drop_succ_cons]
    simp

/-- The `aborted` flag after one live step: set exactly at the abort
index. -/
theorem geoStep_aborted (offset size : Int) (i : Nat) (p : Rec) (s : GeoState)
    (hab : s.aborted = false) :
    (geoStep offset size i p s).aborted = decide ((i : Int) = offset + size - 1) := by
  rw [geoStep, if_neg (by simp [hab])]
  by_cases h : (i : Int) = offset + size - 1
  · simp [h]
  · simp [h, hab]

/-- The `results` component after one live step: append the record exactly
when its index has reached `offset`. -/
theorem geoStep_results (offset size : Int) (i : Nat) (p : Rec) (s : GeoState)
    (hab : s.aborted = false) :
    (geoStep offset size i p s).results =
      s.results ++ (if offset ≤ (i : Int) then [p] else []) := by
  rw [geoStep, if_neg (by simp [hab])]
  by_cases h : (i : Int) < offset
  · have h2 : ¬(offset ≤ (i : Int)) := by omega
    simp [h, h2]
  · have h2 : offset ≤ (i : Int) := by omega
    simp [h, h2]

/-- The `fields` component after one live step. -/
theorem geoStep_fields (offset size : Int) (i : Nat) (p : Rec) (s : GeoState)
    (hab : s.aborted = false) :
    (geoStep offset size i p s).fields =
      if offset ≤ (i : Int) ∧ s.fields.isEmpty then p.map Prod.fst else s.fields := by
  rw [geoStep, if_neg (by simp [hab])]
  by_cases h : (i : Int) < offset
  · have h2 : ¬(offset ≤ (i : Int)) := by omega
    simp [h, h2]
  · have h2 : offset ≤ (i : Int) := by omega
    by_cases hf : s.fields.isEmpty
    · simp [h, h2, hf]
    · simp [h, hf]

/-- The retained window at the abort index is the head alone (or nothing if
`offset` lies beyond the abort index). -/
theorem geoWindow_last (offset size : Int) (i : Nat) (p : Rec) (ps : List Rec)
    (hlast : (i : Int) = offset + size - 1) :
    geoWindow offset size i (p :: ps) = if offset ≤ (i : Int) then [p] else [] := by
  unfold geoWindow
  have h1 : (offset + size - i).toNat = 1 := by omega
  rw [h1, List.take_succ_cons, List.take_zero]
  by_cases h2 : offset ≤ (i : Int)
  · have h3 : (offset - i).toNat = 0 := by omega
    rw [h3, if_pos h2]
    simp
  · have h3 : 1 ≤ (offset - i).toNat := by omega
    rw [if_neg h2]
    cases h4 : (offset - i).toNat with
    | zero => omega
    | succ n => simp

/-- The `aborted` flag after a live run: the transfer has been aborted
exactly when the stream reached the abort index `offset+size-1`. -/
theorem geoRun_flag (offset size : Int) (ps : List Rec) :
    ∀ (i : Nat) (s : GeoState), s.aborted = false → (i : Int) ≤ offset + size - 1 →
      (geoRun offset size s i ps).aborted =
        decide ((offset + size - i).toNat ≤ ps.length) := by
  induction ps with
  | nil =>
    intro i s hab hle
    have h2 : ¬((offset + size - i).toNat ≤ ([] : List Rec).length) := by
      simp only [List.length_nil]
      omega
    simpa [geoRun, hab] using (decide_eq_false h2).symm
  | cons p ps ih =>
    intro i s hab hle
    rw [geoRun]
    by_cases hlast : (i : Int) = offset + size - 1
    · have habn : (geoStep offset size i p s).aborted = true := by
        rw [geoStep_aborted offset size i p s hab]
        simp [hlast]
      rw [geoRun_aborted offset size ps _ _ habn, habn]
      have hlen : (offset + size - i).toNat ≤ (p :: ps).length := by
        simp only [List.length_cons]
        omega
      exact (decide_eq_true hlen).symm
    · have hstep : (geoStep offset size i p s).aborted = false := by
        rw [geoStep_aborted offset size i p s hab]
        simp [hlast]
      have hle1 : ((i + 1 : Nat) : Int) ≤ offset + size - 1 := by push_cast; omega
      rw [ih (i + 1) _ hstep hle1]
      have hcnt : (offset + size - i).toNat = (offset + size - (i + 1 : Nat)).toNat + 1 := by
        push_cast
        omega
      rw [List.length_cons]
      exact decide_eq_decide.mpr (by omega)

/-- The records after a live run: the starting results followed by the
retained window of the stream. -/
theorem geoRun_results (offset size : Int) (ps : List Rec) :
    ∀ (i : Nat) (s : GeoState), s.aborted = false → (i : Int) ≤ offset + size - 1 →
      (geoRun offset size s i ps).results = s.results ++ geoWindow offset size i ps := by
  induction ps with
  | nil =>
    intro i s hab _
    simp [geoRun, geoWindow]
  | cons p ps ih =>
    intro i s hab hle
    rw [geoRun]
    by_cases hlast : (i : Int) = offset + size - 1
    · have habn : (geoStep offset size i p s).aborted = true := by
        rw [geoStep_aborted offset size i p s hab]
        simp [hlast]
      rw [geoRun_aborted offset size ps _ _ habn,
        geoStep_results offset size i p s hab, geoWindow_last offset size i p ps hlast]
    · have hstep : (geoStep offset size i p s).aborted = false := by
        rw [geoStep_aborted offset size i p s hab]
        simp [hlast]
      have hlt : (i : Int) < offset + size - 1 := lt_of_le_of_ne hle hlast
      have hle1 : ((i + 1 : Nat) : Int) ≤ offset + size - 1 := by push_cast; omega
      rw [ih (i + 1) _ hstep hle1, geoStep_results offset size i p s hab,
        geoWindow_cons offset size i p ps hlt, List.append_assoc]

/-- The field names after a live run: if `fields` was still empty, it ends
up holding the keys of the first retained record that has any keys. -/
theorem geoRun_fields (offset size : Int) (ps : List Rec) :
    ∀ (i : Nat) (s : GeoState), s.aborted = false → (i : Int) ≤ offset + size - 1 →
      (geoRun offset size s i ps).fields =
        if s.fields.isEmpty then firstFields (geoWindow offset size i ps) else s.fields := by
  induction ps with
  | nil =>
    intro i s hab _
    rw [geoRun]
    by_cases hf : s.fields.isEmpty
    · simp [geoWindow, firstFields, hf, List.isEmpty_iff.mp hf]
    · simp [hf]
  | cons p ps ih =>
    intro i s hab hle
    rw [geoRun]
    by_cases hlast : (i : Int) = offset + size - 1
    · have habn : (geoStep offset size i p s).aborted = true := by
        rw [geoStep_aborted offset size i p s hab]
        simp [hlast]
      rw [geoRun_aborted offset size ps _ _ habn,
        geoStep_fields offset size i p s hab, geoWindow_last offset size i p ps hlast]
      by_cases h2 : offset ≤ (i : Int)
      · by_cases hf : s.fields.isEmpty
        · simp only [h2, hf, and_self, if_pos, if_true, firstFields]
          by_cases hk : (p.map Prod.fst).isEmpty
          · simp [hk, List.isEmpty_iff.mp hk, List.isEmpty_iff.mp hf]
          · simp [hk]
        · simp [h2, hf]
      · by_cases hf : s.fields.isEmpty
        · simp [h2, hf, firstFields, List.isEmpty_iff.mp hf]
        · simp [h2, hf]
    · have hstep : (geoStep offset size i p s).aborted = false := by
        rw [geoStep_aborted offset size i p s hab]
        simp [hlast]
      have hlt : (i : Int) < offset + size - 1 := lt_of_le_of_ne hle hlast
      have hle1 : ((i + 1 : Nat) : Int) ≤ offset + size - 1 := by push_cast; omega
      rw [ih (i + 1) _ hstep hle1, geoStep_fields offset size i p s hab,
        geoWindow_cons offset size i p ps hlt]
      by_cases h2 : offset ≤ (i : Int)
      · by_cases hf : s.fields.isEmpty
        · simp [h2, hf, firstFields]
        · simp [h2, hf]
      · simp [h2]

/-- The ArcGIS sampler retains the whole feed. -/
theorem arcgisResults_eq (feed : List Rec) : arcgisResults feed = feed := by
  rw [arcgisResults]
  have h : ∀ (l acc : List Rec), l.foldl (fun acc f => acc ++ [f]) acc = acc ++ l := by
    intro l
    induction l with
    | nil => intro acc; simp
    | cons x xs ih => intro acc; simp [List.foldl_cons, ih]
  simpa using h feed []

/-- `maxCount` over a cons. -/
theorem maxCount_cons (f : Char → Nat) (c : Char) (cs : List Char) :
    maxCount f (c :: cs) = max (f c) (maxCount f cs) := by
  simp [maxCount]

/-- The left fold of lodash `_.maxBy` returns the first element attaining
the maximum value. -/
theorem maxByFold_foldl_eq_find (f : Char → Nat) :
    ∀ (cs : List Char) (c : Char),
      some (cs.foldl (fun m x => if f m < f x then x else m) c) =
        (c :: cs).find? (fun x => f x = maxCount f (c :: cs)) := by
  intro cs
  induction cs with
  | nil =>
    intro c
    have h : decide (f c = maxCount f [c]) = true := by
      simp [maxCount]
    simp [List.find?_cons, h]
  | cons x cs ih =>
    intro c
    rw [List.foldl_cons]
    have hMx : maxCount f (x :: cs) = max (f x) (maxCount f cs) := maxCount_cons f x cs
    have hMc : maxCount f (c :: cs) = max (f c) (maxCount f cs) := maxCount_cons f c cs
    have hMcx : maxCount f (c :: x :: cs) = max (f c) (maxCount f (x :: cs)) :=
      maxCount_cons f c (x :: cs)
    by_cases hcx : f c < f x
    · have hMeq : maxCount f (x :: cs) = maxCount f (c :: x :: cs) := by omega
      rw [if_pos hcx, ih x, hMeq]
      have hc : decide (f c = maxCount f (c :: x :: cs)) = false := by
        simp only [decide_eq_false_iff_not]
        omega
      conv_rhs => rw [List.find?_cons]
      simp [hc]
    · have hMeq : maxCount f (c :: cs) = maxCount f (c :: x :: cs) := by omega
      rw [if_neg hcx, ih c, hMeq]
      conv_lhs => rw [List.find?_cons]
      conv_rhs => rw [List.find?_cons]
      by_cases hc : decide (f c = maxCount f (c :: x :: cs)) = true
      · simp [hc]
      · have hc2 : decide (f c = maxCount f (c :: x :: cs)) = false := by
          simpa using hc
        have hcne : ¬(f c = maxCount f (c :: x :: cs)) := by
          simpa using hc2
        have hx : decide (f x = maxCount f (c :: x :: cs)) = false := by
          simp only [decide_eq_false_iff_not]
          omega
        simp only [hc2]
        conv_rhs => rw [List.find?_cons]
        simp [hx]

/-- `maxByFold` on a non-empty list is `find?` of the maximum. -/
theorem maxByFold_eq_find (f : Char → Nat) (c : Char) (cs : List Char) :
    maxByFold f (c :: cs) = (c :: cs).find? (fun x => f x = maxCount f (c :: cs)) := by
  rw [maxByFold]
  exact maxByFold_foldl_eq_find f cs c

/-- Dropping the zero-count elements does not change the maximum count. -/
theorem maxCount_filter_pos (f : Char → Nat) :
    ∀ l : List Char, maxCount f (l.filter (fun c => 0 < f c)) = maxCount f l := by
  intro l
  induction l with
  | nil => rfl
  | cons c cs ih =>
    by_cases h : 0 < f c
    · rw [List.filter_cons_of_pos (by simpa using h), maxCount_cons, maxCount_cons, ih]
    · rw [List.filter_cons_of_neg (by simpa using h), maxCount_cons, ih]
      omega

/-- When the target count is positive, searching the filtered candidate
list finds the same element as searching the full candidate list. -/
theorem find_filter_pos (f : Char → Nat) (M : Nat) (hM : 0 < M) :
    ∀ l : List Char,
      (l.filter (fun c => 0 < f c)).find? (fun c => f c = M) =
        l.find? (fun c => f c = M) := by
  intro l
  induction l with
  | nil => rfl
  | cons c cs ih =>
    by_cases h : 0 < f c
    · rw [List.filter_cons_of_pos (by simpa using h)]
      simp only [List.find?]
      by_cases hc : f c = M
      · simp [hc]
      · simp [hc, ih]
    · rw [List.filter_cons_of_neg (by simpa using h)]
      have hc : ¬(f c = M) := by omega
      simp only [List.find?]
      simp [hc, ih]

/-- Two `GeoState`s with equal components are equal. -/
theorem geoState_ext (a b : GeoState) (hf : a.fields = b.fields)
    (hr : a.results = b.results) (ha : a.aborted = b.aborted) : a = b := by
  cases a
  cases b
  simp_all

/-- Once `fields` is non-empty, no later feature changes it (the
`_.isEmpty` guard in `parseGeoJsonStream`). -/
theorem geoRun_fields_frozen (offset size : Int) (ps : List Rec) :
    ∀ (i : Nat) (s : GeoState), s.fields ≠ [] →
      (geoRun offset size s i ps).fields = s.fields := by
  induction ps with
  | nil => intro i s _; rfl
  | cons p ps ih =>
    intro i s hf
    rw [geoRun]
    have hstep : (geoStep offset size i p s).fields = s.fields := by
      rw [geoStep]
      by_cases hab : s.aborted
      · simp [hab]
      · have hne : ¬(s.fields.isEmpty) := by simpa [List.isEmpty_iff] using hf
        simp only [hab, if_neg (by simp [hab] : ¬(s.aborted = true))]
        by_cases h2 : (i : Int) < offset
        · simp [h2]
        · simp [h2, hne]
    rw [show geoStep offset size i p s =
        { fields := s.fields, results := (geoStep offset size i p s).results,
          aborted := (geoStep offset size i p s).aborted } from
      geoState_ext _ _ hstep rfl rfl]
    exact ih (i + 1) _ (by simpa using hf)

/-! ## Claim theorems -/

set_option maxRecDepth 8192 in
/-- Claim C1, counterexample: an HTTP delimited-text source with 200 data
rows — more than `size + offset = 105` — sampled at `offset = 95`,
`size = 10` returns 5 records, not `size = 10`, because `sampleHttpSource`
writes only the first 100 data lines to the temp file it then parses. -/
theorem c1_counterexample :
    (List.replicate 200 ([("a", "1")] : Rec)).length > 10 + 95 ∧
    (httpCsvSample (List.replicate 200 [("a", "1")]) 95 10).length = 5 ∧
    (httpCsvSample (List.replicate 200 [("a", "1")]) 95 10).length ≠ 10 := by
  refine ⟨by decide, by decide, by decide⟩

/-- Claim C1 as amended: for `parseCsvStream` fed directly (FTP and ZIP
delimited-text sources) the number of records returned is
`min(size, available_records_after_offset)`; for an HTTP delimited-text
source the available records are first capped at 100 by the line-copying
step of `sampleHttpSource`, so the count is
`min(size, min(available, 100) - offset)` and equals `size` only when
`offset + size` does not exceed 100. -/
theorem c1_record_count (rows : List Rec) (offset size : Int) :
    (csvSample rows offset size).length = min size.toNat (rows.length - offset.toNat) ∧
    (httpCsvSample rows offset size).length =
      min size.toNat (min rows.length 100 - offset.toNat) := by
  constructor
  · rw [csvSample_eq]
    simp [List.length_take, List.length_drop]
  · rw [httpCsvSample, csvSample_eq]
    simp only [List.length_take, List.length_drop]
    omega

/-- Claim C2, counterexample: a request with `size = -5` — accepted by
`determineType`, since -5 is a finite integer and passes `_.isInteger` —
against a delimited-text source: `results.length < size` is `0 < -5`,
false from the start, so the collector pushes nothing, the request
succeeds with an empty results array, and its length 0 exceeds
`size = -5`, refuting `results.length ≤ size` for every request. -/
theorem c2_counterexample :
    checkQueryParam (JsParseInt.int (-5)) 10 = ParamResult.ok (-5) ∧
    csvSample [[("a", "1")]] 0 (-5) = [] ∧
    ¬(((csvSample [[("a", "1")]] 0 (-5)).length : Int) ≤ -5) := by
  refine ⟨by decide, by decide, by decide⟩

/-- Claim C2 as amended: for every request with non-negative `offset` and
non-negative `size`, the results array never exceeds `size` at any point
during sampling (the universally quantified stream argument ranges over
every prefix of the source, so the bound holds at every intermediate
state): the CSV collector stops pushing at `size`; the GeoJSON decoder
either refuses a negative abort index at pattern registration — leaving
`results` empty — or retains at most the window up to its abort index; and
the ArcGIS sampler, which pushes every record of its feed, respects the
bound exactly when the server-side-limited feed holds at most `size`
records. -/
theorem c2_results_bounded (offset size : Int) (h0 : 0 ≤ offset) (h1 : 0 ≤ size) :
    (∀ rows : List Rec, (csvSample rows offset size).length ≤ size.toNat) ∧
    (∀ features : List Rec,
        (geoResultsOf (parseGeoJsonStream offset size features)).length ≤ size.toNat) ∧
    (∀ feed : List Rec, feed.length ≤ size.toNat →
        (arcgisResults feed).length ≤ size.toNat) := by
  refine ⟨?_, ?_, ?_⟩
  · intro rows
    rw [csvSample_eq]
    simp only [List.length_take, List.length_drop]
    omega
  · intro features
    rw [parseGeoJsonStream]
    by_cases hneg : offset + size - 1 < 0
    · rw [if_pos hneg]
      simp [geoResultsOf]
    · rw [if_neg hneg, geoResultsOf]
      have h2 : ((0 : Nat) : Int) ≤ offset + size - 1 := by push_cast; omega
      rw [geoRun_results offset size features 0 geoInit rfl h2]
      have h3 : geoInit.results = [] := rfl
      rw [h3, List.nil_append, geoWindow]
      simp only [List.length_drop, List.length_take]
      omega
  · intro feed hlen
    rw [arcgisResults_eq]
    exact hlen

/-- Witness for the amended claim C2, at `offset = 0`, `size = 1` over a
two-feature source. -/
theorem c2_results_bounded_witness :
    (0 ≤ (0 : Int) ∧ 0 ≤ (1 : Int)) ∧
    (geoResultsOf (parseGeoJsonStream 0 1 [[("a", "1")], [("b", "2")]])).length
        ≤ (1 : Int).toNat :=
  ⟨⟨by decide, by decide⟩,
    ((c2_results_bounded 0 1 (by decide) (by decide)).2.1) [[("a", "1")], [("b", "2")]]⟩

/-- Claim C4, counterexample: `determineType` accepts a negative integer
size (`parseInt` gives -5, a finite integer, which passes `_.isInteger`)
instead of rejecting it, and an unparsable value (`parseInt` gives `NaN`)
is silently replaced by the default 10 by `_.defaultTo` instead of
producing a validation error. -/
theorem c4_counterexample :
    checkQueryParam (JsParseInt.int (-5)) 10 = ParamResult.ok (-5) ∧
    checkQueryParam (JsParseInt.int (-5)) 10 ≠ ParamResult.invalid ∧
    checkQueryParam JsParseInt.nan 10 = ParamResult.ok 10 ∧
    checkQueryParam JsParseInt.nan 10 ≠ ParamResult.invalid := by
  refine ⟨by decide, by decide, by decide, by decide⟩

/-- Claim C4 as amended: the size/offset validation of `determineType`
rejects exactly the values whose defaulted `parseInt` result is not a
finite integer: every finite integer — negative ones included — is
accepted as-is, an unparsable or missing value (`parseInt` gives `NaN`)
is silently replaced by the default rather than rejected, and only an
overflowing numeral of roughly 309 or more digits (`parseInt` gives
`±Infinity`, which `_.defaultTo` keeps and `_.isInteger` refuses) reaches
the 400 `Invalid size/offset parameter value` response. -/
theorem c4_param_validation (dflt : Int) :
    (∀ n : Int, checkQueryParam (JsParseInt.int n) dflt = ParamResult.ok n) ∧
    checkQueryParam JsParseInt.nan dflt = ParamResult.ok dflt ∧
    checkQueryParam JsParseInt.posInf dflt = ParamResult.invalid ∧
    checkQueryParam JsParseInt.negInf dflt = ParamResult.invalid :=
  ⟨fun _ => rfl, rfl, rfl, rfl⟩

/-- Claim C3: when at least one candidate occurs in the header line, the
detected delimiter is the candidate among comma, pipe, tab, and semicolon
that occurs most frequently, with ties broken by the earliest in that
candidate order — the order used both by the code
(`_.pick(histogram, [',', '|', '\t', ';'])` and lodash `maxBy` keeping the
first maximum) and by spec section 4.3.  (Section 8's alternative listing
comma, pipe, semicolon, tab disagrees with the code exactly on a
tab/semicolon tie, where the code picks tab.) -/
theorem c3_delimiter_detection (line : List Char) (h : 0 < maxCandidateCount line) :
    likelyDelimiter line = specDelimiter line := by
  have hset : delimiterCandidates = specCandidateOrder := rfl
  have hMfull : maxCount (countChar line) delimiterCandidates = maxCandidateCount line := by
    rw [hset]
    rfl
  have hMfilt : maxCount (countChar line) (presentCandidates line) = maxCandidateCount line := by
    rw [presentCandidates, maxCount_filter_pos (countChar line) delimiterCandidates]
    exact hMfull
  cases hfp : presentCandidates line with
  | nil =>
    exfalso
    rw [hfp] at hMfilt
    have h0 : maxCount (countChar line) [] = 0 := rfl
    omega
  | cons c cs =>
    rw [likelyDelimiter, hfp, maxByFold_eq_find]
    have hMc : maxCount (countChar line) (c :: cs) = maxCandidateCount line := by
      rw [← hfp]
      exact hMfilt
    rw [hMc, ← hfp, presentCandidates, hset,
      find_filter_pos (countChar line) (maxCandidateCount line) h specCandidateOrder]
    rfl

/-- Witness for claim C3 at a concrete comma-delimited header line. -/
theorem c3_delimiter_detection_witness :
    0 < maxCandidateCount "a,b,c".data ∧
    likelyDelimiter "a,b,c".data = specDelimiter "a,b,c".data :=
  ⟨by decide, c3_delimiter_detection "a,b,c".data (by decide)⟩

/-- Claim C5, counterexample: over the two-feature GeoJSON source whose
first feature has an empty properties object (`offset = 0`, `size = 2`,
so at least `offset+size` features), the decoder ends with
`fields = ["a"]`, the keys of the second retained feature — not the
property keys of the first retained feature, which are `[]` — because the
`_.isEmpty` guard lets the later feature overwrite the empty key list. -/
theorem c5_counterexample :
    (geoRun 0 2 geoInit 0 [[], [("a", "1")]]).fields = ["a"] ∧
    (([] : Rec).map Prod.fst) = ([] : List String) ∧
    (["a"] : List String) ≠ [] := by
  refine ⟨by decide, by decide, by decide⟩

/-- Claim C5 as amended: for a GeoJSON source with at least `offset+size`
features (non-negative offset, `size ≥ 1`), the decoder retains exactly the
properties of features `offset` through `offset+size-1` in source order,
sets `fields` to the property keys of the first retained feature that has
any keys (an empty properties object leaves `fields` empty for a later
feature to fill), aborts the transfer, does so exactly when the feature at
index `offset+size-1` has been retained — the run never consumes any later
feature — and has not aborted on any strictly shorter stream. -/
theorem c5_geojson_window (offset size : Int) (features : List Rec)
    (h0 : 0 ≤ offset) (h1 : 1 ≤ size)
    (hn : (offset + size).toNat ≤ features.length) :
    (geoRun offset size geoInit 0 features).results
        = (features.drop offset.toNat).take size.toNat ∧
    (geoRun offset size geoInit 0 features).fields
        = firstFields ((features.drop offset.toNat).take size.toNat) ∧
    (geoRun offset size geoInit 0 features).aborted = true ∧
    geoRun offset size geoInit 0 features =
      geoRun offset size geoInit 0 (features.take (offset + size).toNat) ∧
    (geoRun offset size geoInit 0 (features.take ((offset + size).toNat - 1))).aborted
        = false := by
  have hle : ((0 : Nat) : Int) ≤ offset + size - 1 := by push_cast; omega
  have hw : ∀ l : List Rec,
      geoWindow offset size 0 l = (l.take (offset + size).toNat).drop offset.toNat := by
    intro l
    rw [geoWindow]
    norm_num
  have hwin : geoWindow offset size 0 features
      = (features.drop offset.toNat).take size.toNat := by
    rw [hw, List.drop_take]
    congr 1
    omega
  have hwtrunc : geoWindow offset size 0 (features.take (offset + size).toNat)
      = geoWindow offset size 0 features := by
    rw [hw, hw, List.take_take, min_self]
  refine ⟨?_, ?_, ?_, ?_, ?_⟩
  · rw [geoRun_results offset size features 0 geoInit rfl hle]
    rw [show geoInit.results = [] from rfl, List.nil_append, hwin]
  · rw [geoRun_fields offset size features 0 geoInit rfl hle]
    rw [show geoInit.fields.isEmpty = true from rfl, if_pos rfl, hwin]
  · rw [geoRun_flag offset size features 0 geoInit rfl hle]
    apply decide_eq_true
    push_cast
    omega
  · apply geoState_ext
    · rw [geoRun_fields offset size features 0 geoInit rfl hle,
        geoRun_fields offset size (features.take (offset + size).toNat) 0 geoInit rfl hle,
        hwtrunc]
    · rw [geoRun_results offset size features 0 geoInit rfl hle,
        geoRun_results offset size (features.take (offset + size).toNat) 0 geoInit rfl hle,
        hwtrunc]
    · rw [geoRun_flag offset size features 0 geoInit rfl hle,
        geoRun_flag offset size (features.take (offset + size).toNat) 0 geoInit rfl hle]
      apply decide_eq_decide.mpr
      rw [List.length_take]
      push_cast
      omega
  · rw [geoRun_flag offset size (features.take ((offset + size).toNat - 1)) 0 geoInit rfl hle]
    have hlen : (features.take ((offset + size).toNat - 1)).length
        = min ((offset + size).toNat - 1) features.length := List.length_take _ _
    apply decide_eq_false
    rw [hlen]
    push_cast
    omega

/-- Witness for the amended claim C5: `offset = 1`, `size = 2` over a
three-feature source. -/
theorem c5_geojson_window_witness :
    (0 ≤ (1 : Int) ∧ 1 ≤ (2 : Int) ∧
      ((1 : Int) + 2).toNat ≤ ([[("a", "1")], [("b", "2")], [("c", "3")]] : List Rec).length) ∧
    ((geoRun 1 2 geoInit 0 [[("a", "1")], [("b", "2")], [("c", "3")]]).results
        = (([[("a", "1")], [("b", "2")], [("c", "3")]] : List Rec).drop (1 : Int).toNat).take
            (2 : Int).toNat ∧
     (geoRun 1 2 geoInit 0 [[("a", "1")], [("b", "2")], [("c", "3")]]).fields
        = firstFields ((([[("a", "1")], [("b", "2")], [("c", "3")]] : List Rec).drop
            (1 : Int).toNat).take (2 : Int).toNat) ∧
     (geoRun 1 2 geoInit 0 [[("a", "1")], [("b", "2")], [("c", "3")]]).aborted = true ∧
     geoRun 1 2 geoInit 0 [[("a", "1")], [("b", "2")], [("c", "3")]] =
       geoRun 1 2 geoInit 0
         (([[("a", "1")], [("b", "2")], [("c", "3")]] : List Rec).take ((1 : Int) + 2).toNat) ∧
     (geoRun 1 2 geoInit 0
         (([[("a", "1")], [("b", "2")], [("c", "3")]] : List Rec).take
           (((1 : Int) + 2).toNat - 1))).aborted = false) :=
  ⟨⟨by decide, by decide, by decide⟩,
    c5_geojson_window 1 2 [[("a", "1")], [("b", "2")], [("c", "3")]]
      (by decide) (by decide) (by decide)⟩

/-- Claim C6, counterexample: the code tests `statusCode !== 200`, not
membership in the 2xx class, so the 2xx status 204 does not proceed to
decoding — it produces an error response. -/
theorem c6_counterexample :
    (200 ≤ (204 : Int) ∧ (204 : Int) < 300) ∧
    handleHttpResponse 204 (some "application/json".data) =
      HttpResponseAction.respondErrorPlain 204 ∧
    handleHttpResponse 204 (some "application/json".data) ≠
      HttpResponseAction.proceedToDecode := by
  refine ⟨⟨by decide, by decide⟩, by decide, by decide⟩

/-- Claim C6 as amended: a fetched response proceeds to decoding exactly
when its status code is 200 (all other statuses, 2xx included, yield a 400
connection error), and the upstream body text is included in the error
message exactly when the response content-type starts with
`text/plain`. -/
theorem c6_http_status_dispatch (statusCode : Int) (contentType : Option (List Char)) :
    (handleHttpResponse statusCode contentType = HttpResponseAction.proceedToDecode ↔
      statusCode = 200) ∧
    (handleHttpResponse statusCode contentType =
        HttpResponseAction.respondErrorWithBody statusCode ↔
      statusCode ≠ 200 ∧ contentTypeIsTextPlain contentType = true) ∧
    (handleHttpResponse statusCode contentType =
        HttpResponseAction.respondErrorPlain statusCode ↔
      statusCode ≠ 200 ∧ contentTypeIsTextPlain contentType = false) := by
  rw [handleHttpResponse]
  by_cases h : statusCode = 200
  · simp [h]
  · by_cases h2 : contentTypeIsTextPlain contentType
    · simp [h, h2]
    · simp [h, h2]

/-- Witness for the amended claim C6 at status 200. -/
theorem c6_http_status_dispatch_witness :
    handleHttpResponse 200 none = HttpResponseAction.proceedToDecode :=
  (c6_http_status_dispatch 200 none).1.mpr rfl

/-- Claim C7: a ZIP archive none of whose entry names ends in a recognized
extension (`.csv`/`.tsv`/`.psv` case-insensitively, `.geojson`, `.dbf`)
terminates with the 400 "Could not determine type from zip file" error
response — the `end` handler of `processZipFile` fires with `conform.type`
still unset — and is never dispatched to a decoder, so no 200 success with
empty fields and results is possible. -/
theorem c7_zip_no_recognized_entry (entries : List String)
    (h : ∀ e ∈ entries, isDelimitedFile e = false ∧ strEndsWith e ".geojson" = false ∧
        strEndsWith e ".dbf" = false) :
    processZipFile entries =
      ZipOutcome.errorResp 400 "Could not determine type from zip file" ∧
    ∀ e d, processZipFile entries ≠ ZipOutcome.dispatched e d := by
  induction entries with
  | nil =>
    refine ⟨rfl, ?_⟩
    intro e d
    simp [processZipFile]
  | cons x xs ih =>
    have hx := h x (List.mem_cons_self x xs)
    have hdec : zipEntryDecoder x = none := by
      rw [zipEntryDecoder]
      simp [hx.1, hx.2.1, hx.2.2]
    have hxs := ih (fun e he => h e (List.mem_cons_of_mem x he))
    constructor
    · simp only [processZipFile, hdec]
      exact hxs.1
    · intro e d
      simp only [processZipFile, hdec]
      exact hxs.2 e d

/-- Witness for claim C7: an archive holding only `readme.txt`. -/
theorem c7_zip_no_recognized_entry_witness :
    (∀ e ∈ ["readme.txt"], isDelimitedFile e = false ∧ strEndsWith e ".geojson" = false ∧
        strEndsWith e ".dbf" = false) ∧
    processZipFile ["readme.txt"] =
      ZipOutcome.errorResp 400 "Could not determine type from zip file" :=
  ⟨by decide, (c7_zip_no_recognized_entry ["readme.txt"] (by decide)).1⟩

/-- Claim C8, counterexample: the legacy `/fields` CSV sampler assigns
`fields` from every record — after one record `fields` is `["a"]`, after a
second record with different keys it has been overwritten to `["b"]` — so
`fields` is not assigned at most once in the legacy variant. -/
theorem c8_counterexample :
    (legacyCsvRun [[("a", "1")]]).fields = ["a"] ∧
    (legacyCsvRun [[("a", "1")], [("b", "2")]]).fields = ["b"] ∧
    (["a"] : List String) ≠ ["b"] := by
  refine ⟨by decide, by decide, by decide⟩

/-- Claim C8 as amended: in the current sampler `fields` is never
overwritten once set — the GeoJSON decoder leaves a non-empty `fields`
untouched for the rest of the stream, and the delimited-text decoder
derives `fields` from the header line alone, independent of the records —
while the legacy `/fields` variant reassigns `fields` on every record. -/
theorem c8_fields_write_once (offset size : Int) (i : Nat) (s : GeoState)
    (ps : List Rec) (hf : s.fields ≠ []) (headerLine : List Char) (rows rows2 : List Rec) :
    (geoRun offset size s i ps).fields = s.fields ∧
    (parseCsvStream headerLine rows offset size).fields =
      (parseCsvStream headerLine rows2 offset size).fields :=
  ⟨geoRun_fields_frozen offset size ps i s hf, rfl⟩

/-- Witness for the amended claim C8. -/
theorem c8_fields_write_once_witness :
    ((["x"] : List String) ≠ []) ∧
    ((geoRun 0 2 { fields := ["x"], results := [], aborted := false } 0
        [[("a", "1")]]).fields = GeoState.fields { fields := ["x"], results := [], aborted := false } ∧
     (parseCsvStream "h1,h2".data [[("a", "1")]] 0 2).fields =
       (parseCsvStream "h1,h2".data [[("b", "2")]] 0 2).fields) :=
  ⟨by decide,
    c8_fields_write_once 0 2 0 { fields := ["x"], results := [], aborted := false }
      [[("a", "1")]] (by decide) "h1,h2".data [[("a", "1")]] [[("b", "2")]]⟩

/-- Claim C9: offset/size windowing is consistent on a static source, for
both the delimited-text and the GeoJSON decoder: the `offset=0,size=10`
sample is the first half and the `offset=10,size=10` sample the second half
of the `offset=0,size=20` sample — disjoint, contiguous, and concatenating
to it. -/
theorem c9_window_consistency (rows features : List Rec) :
    (csvSample rows 0 10 = (csvSample rows 0 20).take 10 ∧
     csvSample rows 10 10 = (csvSample rows 0 20).drop 10 ∧
     csvSample rows 0 10 ++ csvSample rows 10 10 = csvSample rows 0 20) ∧
    (geoSample 0 10 features = (geoSample 0 20 features).take 10 ∧
     geoSample 10 10 features = (geoSample 0 20 features).drop 10 ∧
     geoSample 0 10 features ++ geoSample 10 10 features = geoSample 0 20 features) := by
  have t0 : (0 : Int).toNat = 0 := rfl
  have t10 : (10 : Int).toNat = 10 := rfl
  have t20 : (20 : Int).toNat = 20 := rfl
  have e1 : csvSample rows 0 10 = rows.take 10 := by
    rw [csvSample_eq, t0, t10, List.drop_zero]
  have e2 : csvSample rows 10 10 = (rows.drop 10).take 10 := by
    rw [csvSample_eq, t10]
  have e3 : csvSample rows 0 20 = rows.take 20 := by
    rw [csvSample_eq, t0, t20, List.drop_zero]
  have s20 : ((10 : Int) + 10).toNat = 20 := by decide
  have g1 : geoSample 0 10 features = features.take 10 := by
    rw [geoSample, geoRun_results 0 10 features 0 geoInit rfl (by norm_num),
      show geoInit.results = [] from rfl, List.nil_append, geoWindow]
    simp only [Nat.cast_zero, sub_zero, zero_add, t10, t0, List.drop_zero]
  have g2 : geoSample 10 10 features = (features.take 20).drop 10 := by
    rw [geoSample, geoRun_results 10 10 features 0 geoInit rfl (by norm_num),
      show geoInit.results = [] from rfl, List.nil_append, geoWindow]
    simp only [Nat.cast_zero, sub_zero, s20, t10]
  have g3 : geoSample 0 20 features = features.take 20 := by
    rw [geoSample, geoRun_results 0 20 features 0 geoInit rfl (by norm_num),
      show geoInit.results = [] from rfl, List.nil_append, geoWindow]
    simp only [Nat.cast_zero, sub_zero, zero_add, t20, t0, List.drop_zero]
  refine ⟨⟨?_, ?_, ?_⟩, ⟨?_, ?_, ?_⟩⟩
  · rw [e1, e3, List.take_take]
    norm_num
  · rw [e2, e3, List.drop_take]
  · rw [e1, e2, e3, show (20 : Nat) = 10 + 10 from rfl, List.take_add]
  · rw [g1, g3, List.take_take]
    norm_num
  · rw [g2, g3]
  · rw [g1, g2, g3,
      show List.take 10 features = (List.take 20 features).take 10 by
        rw [List.take_take]
        norm_num]
    exact List.take_append_drop 10 (List.take 20 features)

/-- Claim C10: a request whose URL parses, whose path carries a supported
extension, and whose scheme is none of http, https, ftp (for example
`file:`): `determineType` stores `type = getProtocol(scheme) = undefined`,
every `protocolCheck`-guarded sampler router passes, and `output` answers
200 with the still-empty `fields` and `results`. -/
theorem c10_unsupported_scheme_ok (protocol pathname : String)
    (hp1 : protocol ≠ "http:") (hp2 : protocol ≠ "https:") (hp3 : protocol ≠ "ftp:")
    (hp4 : protocol ≠ "")
    (ha : arcgisMatch pathname = false)
    (hext : strEndsWith pathname ".geojson" = true ∨ isDelimitedFile pathname = true ∨
      strEndsWith pathname ".zip" = true) :
    routeRequest protocol pathname = RouteResult.ok200 [] [] := by
  have hgp : getProtocol protocol = none := by
    rw [getProtocol, if_neg (not_or.mpr ⟨hp1, hp2⟩), if_neg hp3]
  unfold routeRequest determineType
  rw [if_neg (by simp [ha] : ¬(arcgisMatch pathname = true)), if_neg hp4]
  by_cases hg : strEndsWith pathname ".geojson" = true
  · rw [if_pos hg, hgp]
    rfl
  · rw [if_neg hg]
    by_cases hd : isDelimitedFile pathname = true
    · rw [if_pos hd, hgp]
      rfl
    · rw [if_neg hd]
      by_cases hz : strEndsWith pathname ".zip" = true
      · rw [if_pos hz, hgp]
        rfl
      · exact absurd hext (by simp [hg, hd, hz])

/-- Witness for claim C10: `file:///data.csv`. -/
theorem c10_unsupported_scheme_ok_witness :
    ("file:" ≠ "http:" ∧ "file:" ≠ "https:" ∧ "file:" ≠ "ftp:" ∧ "file:" ≠ "" ∧
      arcgisMatch "/data.csv" = false ∧ isDelimitedFile "/data.csv" = true) ∧
    routeRequest "file:" "/data.csv" = RouteResult.ok200 [] [] :=
  ⟨⟨by decide, by decide, by decide, by decide, by decide, by decide⟩,
    c10_unsupported_scheme_ok "file:" "/data.csv" (by decide) (by decide) (by decide)
      (by decide) (by decide) (Or.inr (Or.inl (by decide)))⟩

end SubmitService
